import Mathlib

/-!
A shallow embedding of the multiplayer word-guessing server implemented in
`src/index.ts` (Bun + WebSocket).  Pure helpers are translated directly; the
stateful WebSocket handlers are modelled as explicit state-passing functions
over a `Sys` record, with the asynchronous suspension points of the message
pipeline (the guess-classifier call and the question-answer call) split into
separate resume steps so that arbitrary interleavings can be expressed as
operation sequences.  Randomness (player/message ids, DB row picks) and
network results are supplied as explicit parameters.
-/

namespace WordOracle

/-- Models JS `String.prototype.toLowerCase` for the ASCII strings handled by
the game (`Char.toLower` lowers `A`–`Z`). -/
def jsToLower (s : String) : String := String.mk (s.data.map Char.toLower)

/-- Models JS `String.prototype.trim`: strip leading and trailing whitespace. -/
def jsTrim (s : String) : String :=
  String.mk (((s.data.dropWhile Char.isWhitespace).reverse.dropWhile Char.isWhitespace).reverse)

/-- Models JS `haystack.includes(needle)`: the needle occurs contiguously in
the haystack. -/
def jsIncludes (haystack needle : String) : Bool :=
  decide (needle.data <:+: haystack.data)

/-- Models `.replace(/^(the|a|an)\s+/i, "")` as applied in `checkGuess` to an
already lowercased, trimmed string: strip one leading article together with
the greedy whitespace run following it (the three alternatives are mutually
exclusive because each requires a whitespace character right after the
article, so regex alternation order does not matter). -/
def stripLeadingArticle (s : String) : String :=
  let cs := s.data
  let tryArt : List Char → Option (List Char) := fun art =>
    if art.isPrefixOf cs then
      match cs.drop art.length with
      | [] => none
      | c :: rest =>
        if c.isWhitespace then some ((c :: rest).dropWhile Char.isWhitespace) else none
    else none
  match tryArt "the".data with
  | some r => String.mk r
  | none =>
    match tryArt "a".data with
    | some r => String.mk r
    | none =>
      match tryArt "an".data with
      | some r => String.mk r
      | none => s

/-- Normalization applied by `checkGuess` to both the guessed term and the
secret word: `x.toLowerCase().trim().replace(/^(the|a|an)\s+/i, "")`. -/
def normalizeTerm (s : String) : String :=
  stripLeadingArticle (jsTrim (jsToLower s))

/-- `checkGuess` from `src/index.ts` (lines 499–521).  The secret word is
passed explicitly (`gameState.secretWord` in the source); `none` models the
`!gameState.secretWord` early return. -/
def checkGuess (secretWord : Option String) (guess : String) : Bool :=
  match secretWord with
  | none => false
  | some w =>
    let normalizedGuess := normalizeTerm guess
    let normalizedWord := normalizeTerm w
    if normalizedGuess == normalizedWord then true
    else if normalizedGuess ++ "s" == normalizedWord then true
    else if normalizedGuess == normalizedWord ++ "s" then true
    else if jsIncludes normalizedGuess normalizedWord
            || jsIncludes normalizedWord normalizedGuess then
      if normalizedWord.length > 3 then true else false
    else false

/-- The matching rule in the specification's words: accept exactly on
equality of the normalized terms, singular/plural equivalence by one trailing
"s", or substring containment in either direction when the normalized secret
word is longer than 3 characters. -/
def checkGuessSpec (secretWord : Option String) (guess : String) : Bool :=
  match secretWord with
  | none => false
  | some w =>
    let ng := normalizeTerm guess
    let nw := normalizeTerm w
    (ng == nw) || (ng ++ "s" == nw) || (ng == nw ++ "s")
      || ((jsIncludes ng nw || jsIncludes nw ng) && decide (nw.length > 3))

/-! ## Data model (`src/index.ts` lines 28–170) -/

inductive Category
  | person | place | thing | animal | concept | brand | character
deriving DecidableEq, Repr

structure WordEntry where
  word : String
  category : Category
  facts : String
deriving DecidableEq, Repr

structure Player where
  id : String
  name : String
  color : String
  score : Nat
deriving DecidableEq, Repr

inductive MsgType
  | question | guess | answer | system
deriving DecidableEq, Repr

structure ReplyTo where
  playerName : String
  playerColor : String
deriving DecidableEq, Repr

structure ChatMessage where
  id : String
  playerId : String
  playerName : String
  playerColor : String
  type : MsgType
  content : String
  timestamp : Nat
  replyTo : Option ReplyTo := none
deriving DecidableEq, Repr

/-- `gameState` fields.  `thinkingForPlayers` is a JS `Set<string>`, modelled
as a duplicate-free list with `setAdd`/`setDelete` below. -/
structure GameState where
  players : List Player
  maxPlayers : Nat
  secretWord : Option String
  currentWordEntry : Option WordEntry
  round : Nat
  chatHistory : List ChatMessage
  thinkingForPlayers : List String
  lastWinner : Option Player
  corpusReady : Bool
deriving DecidableEq, Repr

/-- The initial `gameState` literal. -/
def initialGameState : GameState :=
  { players := [], maxPlayers := 8, secretWord := none, currentWordEntry := none,
    round := 0, chatHistory := [], thinkingForPlayers := [], lastWinner := none,
    corpusReady := false }

def playerColors : List String :=
  ["#FF6B6B", "#4ECDC4", "#FFE66D", "#95E1D3", "#F38181", "#AA96DA", "#FCBAD3", "#A8D8EA"]

def adjectives : List String :=
  ["Happy", "Sleepy", "Bouncy", "Fuzzy", "Cozy", "Silly", "Jolly", "Wiggly"]

def animals : List String :=
  ["Bunny", "Kitten", "Puppy", "Panda", "Koala", "Otter", "Penguin", "Hamster"]

def generatePlayerName (index : Nat) : String :=
  (adjectives.getD (index % adjectives.length) "") ++ " "
    ++ (animals.getD (index % animals.length) "")

/-- JS `Set.add`. -/
def setAdd (s : List String) (x : String) : List String :=
  if s.contains x then s else s ++ [x]

/-- JS `Set.delete`. -/
def setDelete (s : List String) (x : String) : List String :=
  s.filter (fun y => y != x)

/-! ## Word corpus store (`src/index.ts` lines 36–55).
The sqlite table is modelled as a list of rows; `ORDER BY RANDOM() LIMIT 1`
takes an externally supplied random index. -/

def getWordCountFromDb (db : List WordEntry) : Nat := db.length

/-- `INSERT OR IGNORE`: skip an entry whose `word` key is already present. -/
def saveWordsToDb (db : List WordEntry) (words : List WordEntry) : List WordEntry :=
  words.foldl (fun d e => if d.any (fun x => x.word == e.word) then d else d ++ [e]) db

def deleteWordFromDb (db : List WordEntry) (word : String) : List WordEntry :=
  db.filter (fun e => e.word != word)

def getRandomWordFromDb (db : List WordEntry) (r : Nat) : Option WordEntry :=
  if db.length = 0 then none else db.get? (r % db.length)

def selectWordFromDb (db : List WordEntry) (r : Nat) : Option WordEntry :=
  getRandomWordFromDb db r

/-! ## Outbound events (the JSON payloads of lines 186–255 and the per-handler
sends).  `broadcast` means "sent to every socket in `connections`", `direct`
to a single socket.  The derivable `playerCount` field of the `state`/`welcome`
payloads is omitted (it is `players.length`). -/

inductive OutEvent
  | stateSnapshot (players : List Player) (round : Nat) (chatHistory : List ChatMessage)
      (thinkingForPlayers : List String) (lastWinner : Option Player)
      (hasSecretWord : Bool) (corpusReady : Bool)
  | chatMessage (message : ChatMessage)
  | thinking (playerId : Option String) (isThinking : Bool) (thinkingForPlayers : List String)
  | newRound (round : Nat) (winner : Option Player) (players : List Player)
  | roundSkipped (word : String) (category : Option Category)
  | welcome (playerId : String) (player : Player) (players : List Player) (round : Nat)
      (chatHistory : List ChatMessage) (thinkingForPlayers : List String)
      (lastWinner : Option Player) (hasSecretWord : Bool) (corpusReady : Bool)
  | error (message : String)
  | pong
deriving DecidableEq, Repr

inductive Emit
  | broadcast (event : OutEvent)
  | direct (playerId : String) (event : OutEvent)
deriving DecidableEq, Repr

/-- The payload assembled by `broadcastState()`. -/
def stateEvent (g : GameState) : OutEvent :=
  .stateSnapshot g.players g.round g.chatHistory g.thinkingForPlayers g.lastWinner
    g.secretWord.isSome g.corpusReady

/-- Expansion of one emit into per-socket deliveries, given the registered
connections. -/
def deliver (conns : List String) (em : Emit) : List (String × OutEvent) :=
  match em with
  | .broadcast e => conns.map (fun c => (c, e))
  | .direct pid e => [(pid, e)]

/-- `broadcastThinkingForPlayer` (lines 214–229): mutate the thinking set and
broadcast the delta. -/
def broadcastThinkingForPlayer (g : GameState) (pid : String) (isThinking : Bool) :
    GameState × Emit :=
  let thinking :=
    if isThinking then setAdd g.thinkingForPlayers pid else setDelete g.thinkingForPlayers pid
  ({ g with thinkingForPlayers := thinking },
   Emit.broadcast (.thinking (some pid) isThinking thinking))

/-- A `system` chat message as built by the handlers. -/
def systemMsg (mid content : String) (now : Nat) : ChatMessage :=
  { id := mid, playerId := "system", playerName := "Game", playerColor := "#8B7355",
    type := .system, content := content, timestamp := now }

/-! ## Whole-system state.

`pending` holds the continuations of `message` handlers suspended at an
`await` (the guess-classifier call or the question-answer call); `scheduled`
holds `setTimeout(() => startNewRound(winner))` tasks plus the fire-and-forget
`startNewRound()` triggered for the first player (`winner = none`).  The
result of a network call is an explicit `CallResult` (`failed` models a
thrown exception). -/

inductive CallResult (α : Type)
  | ok (value : α)
  | failed
deriving DecidableEq, Repr

inductive QueryStage
  | awaitDetect
  | awaitAnswer (forced : Option String)
deriving DecidableEq, Repr

/-- A suspended `message` handler: the closure variables it captured
(`playerId`, the `player` object snapshot, the trimmed `message` text and
`requestRound`) plus which `await` it is parked on. -/
structure PendingQuery where
  pid : String
  snapshot : Player
  content : String
  requestRound : Nat
  stage : QueryStage
deriving DecidableEq, Repr

structure Sys where
  game : GameState
  db : List WordEntry
  conns : List String
  pending : List PendingQuery
  scheduled : List (Option Player)
deriving DecidableEq, Repr

def initSys (db0 : List WordEntry) : Sys :=
  { game := initialGameState, db := db0, conns := [], pending := [], scheduled := [] }

/-- External inputs consumed by one `startNewRound` execution: the result of
`generateAndSaveWords()` during corpus initialization (`initGen`) and during
the empty-pick refill (`refillGen`), the two random row picks, and the ids /
timestamp for the messages it may create. -/
structure RoundEnv where
  initGen : Option (List WordEntry)
  refillGen : Option (List WordEntry)
  pick1 : Nat
  pick2 : Nat
  midPrep : String
  midErr : String
  midStart : String
  now : Nat
deriving DecidableEq, Repr

def MIN_WORDS_IN_DB : Nat := 5

/-- `initializeCorpus` (lines 541–563).  Returns the updated state, the
updated corpus and the success flag; `gen = none` models
`generateAndSaveWords()` throwing (caught, `false` returned). -/
def initializeCorpus (g : GameState) (db : List WordEntry) (gen : Option (List WordEntry)) :
    GameState × List WordEntry × Bool :=
  if g.corpusReady then (g, db, true)
  else if MIN_WORDS_IN_DB ≤ getWordCountFromDb db then ({ g with corpusReady := true }, db, true)
  else
    match gen with
    | some ws => ({ g with corpusReady := true }, saveWordsToDb db ws, true)
    | none => (g, db, false)

/-- Word-selection tail of `startNewRound` (lines 604–642), entered with the
emits accumulated so far. -/
def startNewRoundSelect (s : Sys) (winner : Option Player) (env : RoundEnv)
    (pre : List Emit) : Sys × List Emit :=
  let (wordEntry, db') :=
    match selectWordFromDb s.db env.pick1 with
    | some e => (some e, s.db)
    | none =>
      match env.refillGen with
      | some ws =>
        let db2 := saveWordsToDb s.db ws
        (selectWordFromDb db2 env.pick2, db2)
      | none => (none, s.db)
  match wordEntry with
  | none => ({ s with db := db' }, pre)
  | some e =>
    let g := { s.game with secretWord := some e.word, currentWordEntry := some e }
    let content :=
      match winner with
      | some wp => s!"Round {g.round} begins! {wp.name} won the last round!"
      | none =>
        s!"Round {g.round} begins! I\x27m thinking of something... Ask yes/no questions to figure out what it is!"
    let msg := systemMsg env.midStart content env.now
    let g2 := { g with chatHistory := g.chatHistory ++ [msg], lastWinner := winner }
    ({ s with game := g2, db := db' },
     pre ++ [Emit.broadcast (.newRound g2.round winner g2.players),
             Emit.broadcast (.chatMessage msg)])

/-- `startNewRound` (lines 565–642). -/
def startNewRound (s : Sys) (winner : Option Player) (env : RoundEnv) : Sys × List Emit :=
  let g1 := { s.game with
    round := s.game.round + 1, chatHistory := ([] : List ChatMessage),
    lastWinner := winner, thinkingForPlayers := ([] : List String) }
  let clearEmit : Emit := .broadcast (.thinking none false [])
  if g1.corpusReady then
    startNewRoundSelect { s with game := g1 } winner env [clearEmit]
  else
    let prep := systemMsg env.midPrep "The Oracle is preparing... please wait." env.now
    let g2 := { g1 with chatHistory := g1.chatHistory ++ [prep] }
    let pre := [clearEmit, Emit.broadcast (stateEvent g2)]
    match initializeCorpus g2 s.db env.initGen with
    | (g3, db3, ok) =>
      if ok then startNewRoundSelect { s with game := g3, db := db3 } winner env pre
      else
        let err := systemMsg env.midErr "Failed to initialize the Oracle. Please try again." env.now
        let g4 := { g3 with chatHistory := g3.chatHistory ++ [err] }
        ({ s with game := g4, db := db3 }, pre ++ [Emit.broadcast (stateEvent g4)])

/-! ## WebSocket handlers (`src/index.ts` lines 660–901). -/

/-- The `open` handler.  `pid` is the freshly generated player id, `mid` the
join-message id.  A rejected (capacity) connection is never registered: the
`ws.playerId` assignment in the source happens only after the capacity
check. -/
def openConn (s : Sys) (pid mid : String) (now : Nat) : Sys × List Emit :=
  let playerIndex := s.game.players.length
  if s.game.maxPlayers ≤ playerIndex then
    (s, [Emit.direct pid (.error "Game is full!")])
  else
    let player : Player :=
      { id := pid, name := generatePlayerName playerIndex,
        color := playerColors.getD (playerIndex % playerColors.length) "", score := 0 }
    let g1 := { s.game with players := s.game.players ++ [player] }
    let welcomeEmit := Emit.direct pid (.welcome pid player g1.players g1.round g1.chatHistory
        g1.thinkingForPlayers g1.lastWinner g1.secretWord.isSome g1.corpusReady)
    let joinMsg := systemMsg mid s!"{player.name} joined the game!" now
    let g2 := { g1 with chatHistory := g1.chatHistory ++ [joinMsg] }
    let emits := [welcomeEmit, Emit.broadcast (stateEvent g2)]
    -- the first player triggers the initial round start (a fire-and-forget
    -- async call, modelled as a scheduled task with no winner)
    if g2.players.length == 1 && !g2.secretWord.isSome then
      ({ s with game := g2, conns := s.conns ++ [pid], scheduled := s.scheduled ++ [none] },
       emits)
    else
      ({ s with game := g2, conns := s.conns ++ [pid] }, emits)

/-- The `close` handler.  Note: it removes the player and the socket but does
not touch `thinkingForPlayers`. -/
def closeConn (s : Sys) (pid mid : String) (now : Nat) : Sys × List Emit :=
  match s.game.players.findIdx? (fun p => p.id == pid) with
  | none => (s, [])
  | some i =>
    match s.game.players.get? i with
    | none => (s, [])
    | some player =>
      let g1 := { s.game with players := s.game.players.eraseIdx i }
      let leaveMsg := systemMsg mid s!"{player.name} left the game." now
      let g2 := { g1 with chatHistory := g1.chatHistory ++ [leaveMsg] }
      ({ s with game := g2, conns := s.conns.erase pid },
       [Emit.broadcast (stateEvent g2)])

/-- `message` handler, `ping` branch. -/
def pingHandler (s : Sys) (pid : String) : Sys × List Emit :=
  match s.game.players.find? (fun p => p.id == pid) with
  | none => (s, [])
  | some _ => (s, [Emit.direct pid .pong])

/-- `message` handler, `question`/`message` branch, up to the
`await detectGuess(message)` suspension (lines 727–751): guard, chat append,
round capture, thinking flag.  `mid` is the id of the player's chat
message. -/
def submitQuery (s : Sys) (pid content mid : String) (now : Nat) : Sys × List Emit :=
  match s.game.players.find? (fun p => p.id == pid) with
  | none => (s, [])
  | some player =>
    if !s.game.secretWord.isSome || s.game.thinkingForPlayers.contains pid then (s, [])
    else
      let message := jsTrim content
      if message == "" then (s, [])
      else
        let playerMsg : ChatMessage :=
          { id := mid, playerId := player.id, playerName := player.name,
            playerColor := player.color, type := .question, content := message,
            timestamp := now }
        let g1 := { s.game with chatHistory := s.game.chatHistory ++ [playerMsg] }
        let requestRound := g1.round
        let (g2, thinkEmit) := broadcastThinkingForPlayer g1 pid true
        let pq : PendingQuery :=
          { pid := pid, snapshot := player, content := message,
            requestRound := requestRound, stage := .awaitDetect }
        ({ s with game := g2, pending := s.pending ++ [pq] },
         [Emit.broadcast (.chatMessage playerMsg), thinkEmit])

/-- `player.score++` on the live object inside `gameState.players`; a no-op
when the player has disconnected in the meantime (the orphaned JS object is
then mutated invisibly). -/
def bumpScore (players : List Player) (pid : String) : List Player :=
  players.map (fun p => if p.id == pid then { p with score := p.score + 1 } else p)

/-- Continuation of the `message` handler after `await detectGuess(message)`
resolves (lines 753–850).  `result = .failed` models the classifier call
throwing (handled by the `catch` block); `.ok detected` carries the extracted
guess target, if any.  The question path suspends again on
`answerQuestion`. -/
def resumeAfterDetect (s : Sys) (pq : PendingQuery) (result : CallResult (Option String))
    (mid : String) (now : Nat) : Sys × List Emit :=
  match result with
  | .failed =>
    -- catch block (lines 844–850): clear thinking only if still in the round
    if s.game.round == pq.requestRound then
      let (g2, e) := broadcastThinkingForPlayer s.game pq.pid false
      ({ s with game := g2 }, [e])
    else (s, [])
  | .ok detected =>
    if s.game.round != pq.requestRound then
      -- stale: the round advanced while the call was in flight (lines 756–759)
      ({ s with game := { s.game with
           thinkingForPlayers := setDelete s.game.thinkingForPlayers pq.pid } }, [])
    else
      match detected with
      | some guessedWord =>
        if checkGuess s.game.secretWord guessedWord then
          -- win path (lines 766–798)
          let g1 := { s.game with thinkingForPlayers := ([] : List String) }
          let clearEmit := Emit.broadcast (.thinking none false [])
          let g2 := { g1 with players := bumpScore g1.players pq.pid }
          let revealedWord := g2.secretWord
          let db' := match revealedWord with
                     | some w => deleteWordFromDb s.db w
                     | none => s.db
          let revealedText := revealedWord.getD "null"
          let winMsg : ChatMessage :=
            { id := mid, playerId := "ai", playerName := "Oracle", playerColor := "#6B5B95",
              type := .answer,
              content := s!"YES! The word was \"{revealedText}\"! {pq.snapshot.name} wins this round!",
              timestamp := now,
              replyTo := some ⟨pq.snapshot.name, pq.snapshot.color⟩ }
          let g3 := { g2 with chatHistory := g2.chatHistory ++ [winMsg] }
          -- setTimeout(() => startNewRound(player), 3000): the closure holds the
          -- live player object, modelled by its current (score-bumped) entry
          let winnerLive := (g3.players.find? (fun p => p.id == pq.pid)).getD
            { pq.snapshot with score := pq.snapshot.score + 1 }
          ({ s with game := g3, db := db', scheduled := s.scheduled ++ [some winnerLive] },
           [clearEmit, Emit.broadcast (.chatMessage winMsg)])
        else
          -- wrong guess (lines 799–816)
          let wrongMsg : ChatMessage :=
            { id := mid, playerId := "ai", playerName := "Oracle", playerColor := "#6B5B95",
              type := .answer, content := "No, that\x27s not it. Keep trying!",
              timestamp := now,
              replyTo := some ⟨pq.snapshot.name, pq.snapshot.color⟩ }
          let g1 := { s.game with chatHistory := s.game.chatHistory ++ [wrongMsg] }
          let (g2, e) := broadcastThinkingForPlayer g1 pq.pid false
          ({ s with game := g2 }, [Emit.broadcast (.chatMessage wrongMsg), e])
      | none =>
        -- question path (lines 817-819): `answerQuestion` checks the current
        -- secret word at call time and short-circuits without a model call
        let forced : Option String :=
          if !s.game.secretWord.isSome || !s.game.currentWordEntry.isSome then
            some "No game in progress."
          else none
        ({ s with pending := s.pending ++ [{ pq with stage := .awaitAnswer forced }] }, [])

/-- Continuation after `await answerQuestion(message)` resolves
(lines 819–843, plus the shared `catch`). -/
def resumeAfterAnswer (s : Sys) (pq : PendingQuery) (forced : Option String)
    (result : CallResult String) (mid : String) (now : Nat) : Sys × List Emit :=
  let outcome : CallResult String :=
    match forced with
    | some a => .ok a
    | none => result
  match outcome with
  | .failed =>
    if s.game.round == pq.requestRound then
      let (g2, e) := broadcastThinkingForPlayer s.game pq.pid false
      ({ s with game := g2 }, [e])
    else (s, [])
  | .ok answer =>
    if s.game.round != pq.requestRound then
      ({ s with game := { s.game with
           thinkingForPlayers := setDelete s.game.thinkingForPlayers pq.pid } }, [])
    else
      let answerMsg : ChatMessage :=
        { id := mid, playerId := "ai", playerName := "Oracle", playerColor := "#6B5B95",
          type := .answer, content := answer, timestamp := now,
          replyTo := some ⟨pq.snapshot.name, pq.snapshot.color⟩ }
      let g1 := { s.game with chatHistory := s.game.chatHistory ++ [answerMsg] }
      let (g2, e) := broadcastThinkingForPlayer g1 pq.pid false
      ({ s with game := g2 }, [Emit.broadcast (.chatMessage answerMsg), e])

/-- `message` handler, `new_round` branch (lines 852–856). -/
def requestNewRound (s : Sys) (pid : String) (env : RoundEnv) : Sys × List Emit :=
  match s.game.players.find? (fun p => p.id == pid) with
  | none => (s, [])
  | some _ =>
    if s.game.thinkingForPlayers.length == 0 then startNewRound s none env
    else (s, [])

/-- `message` handler, `skip_round` branch (lines 857–868). -/
def requestSkip (s : Sys) (pid : String) : Sys × List Emit :=
  match s.game.players.find? (fun p => p.id == pid) with
  | none => (s, [])
  | some _ =>
    match s.game.secretWord with
    | some w =>
      if s.game.thinkingForPlayers.length == 0 then
        (s, [Emit.broadcast (.roundSkipped w (s.game.currentWordEntry.map (fun e => e.category)))])
      else (s, [])
    | none => (s, [])

/-- Run a scheduled `startNewRound` task. -/
def fireScheduled (s : Sys) (i : Nat) (env : RoundEnv) : Sys × List Emit :=
  match s.scheduled.get? i with
  | none => (s, [])
  | some winner =>
    startNewRound { s with scheduled := s.scheduled.eraseIdx i } winner env

/-- One atomic execution slice of the single-threaded event loop: a handler
running from its entry (or from a resumed `await`) to its next suspension or
return. -/
inductive Op
  | connect (pid mid : String) (now : Nat)
  | disconnect (pid mid : String) (now : Nat)
  | ping (pid : String)
  | submit (pid content mid : String) (now : Nat)
  | resolveDetect (i : Nat) (result : CallResult (Option String)) (mid : String) (now : Nat)
  | resolveAnswer (i : Nat) (result : CallResult String) (mid : String) (now : Nat)
  | newRoundMsg (pid : String) (env : RoundEnv)
  | skipMsg (pid : String)
  | fire (i : Nat) (env : RoundEnv)
deriving DecidableEq, Repr

def step (s : Sys) (op : Op) : Sys × List Emit :=
  match op with
  | .connect pid mid now => openConn s pid mid now
  | .disconnect pid mid now => closeConn s pid mid now
  | .ping pid => pingHandler s pid
  | .submit pid content mid now => submitQuery s pid content mid now
  | .resolveDetect i result mid now =>
    match s.pending.get? i with
    | some pq =>
      match pq.stage with
      | .awaitDetect =>
        resumeAfterDetect { s with pending := s.pending.eraseIdx i } pq result mid now
      | .awaitAnswer _ => (s, [])
    | none => (s, [])
  | .resolveAnswer i result mid now =>
    match s.pending.get? i with
    | some pq =>
      match pq.stage with
      | .awaitAnswer forced =>
        resumeAfterAnswer { s with pending := s.pending.eraseIdx i } pq forced result mid now
      | .awaitDetect => (s, [])
    | none => (s, [])
  | .newRoundMsg pid env => requestNewRound s pid env
  | .skipMsg pid => requestSkip s pid
  | .fire i env => fireScheduled s i env

def run (s : Sys) (ops : List Op) : Sys :=
  ops.foldl (fun t op => (step t op).1) s

/-- Expansion of a handler's emits into per-socket deliveries. -/
def deliverAll (conns : List String) (ems : List Emit) : List (String × OutEvent) :=
  ems.flatMap (deliver conns)

/-- Does the operation take the correct-guess (win) path? This is the only
program point that calls `deleteWordFromDb`. -/
def isWinningResolve (s : Sys) (op : Op) : Bool :=
  match op with
  | .resolveDetect i (.ok (some g)) _ _ =>
    match s.pending.get? i with
    | some pq =>
      (match pq.stage with
       | .awaitDetect => true
       | .awaitAnswer _ => false)
        && (s.game.round == pq.requestRound)
        && checkGuess s.game.secretWord g
    | none => false
  | _ => false

/-- The invariant claimed in §3 of the specification: every id in
`thinkingForPlayers` belongs to a currently connected player. -/
def thinkingSubsetPlayers (g : GameState) : Prop :=
  ∀ pid ∈ g.thinkingForPlayers, ∃ p ∈ g.players, p.id = pid

instance (g : GameState) : Decidable (thinkingSubsetPlayers g) := by
  unfold thinkingSubsetPlayers
  infer_instance

/-! ## Concrete sample data used by counterexamples and witnesses. -/

def sampleEntry (w : String) : WordEntry :=
  { word := w, category := .thing, facts := "some facts" }

/-- Five stored words: enough for `initializeCorpus` to succeed without a
generation call. -/
def sampleDb : List WordEntry :=
  [sampleEntry "cat", sampleEntry "dog", sampleEntry "pen", sampleEntry "cup", sampleEntry "hat"]

def sampleEnv : RoundEnv :=
  { initGen := none, refillGen := none, pick1 := 0, pick2 := 0,
    midPrep := "mp", midErr := "me", midStart := "ms", now := 0 }

/-- Player 1 joins (scheduling the first round), the round starts with secret
word "cat", player 1 submits a question and then disconnects while the query
is still in flight. -/
def disconnectWhileThinkingOps : List Op :=
  [.connect "p1" "m1" 0, .fire 0 sampleEnv, .submit "p1" "is it alive" "m2" 1,
   .disconnect "p1" "m3" 2]

/-- Player 1 submits a query in round 1; player 2 then wins round 1; the
scheduled round start advances to round 2; player 1 submits a new query in
round 2.  Player 1's round-1 query is still unresolved at the end. -/
def staleResumeOps : List Op :=
  [.connect "p1" "m1" 0, .fire 0 sampleEnv,
   .submit "p1" "q1" "m2" 1,
   .connect "p2" "m3" 2,
   .submit "p2" "is it a cat" "m4" 3,
   .resolveDetect 1 (.ok (some "cat")) "m5" 4,
   .fire 0 sampleEnv,
   .submit "p1" "q2" "m6" 5]

/-- The suspended round-1 query of player 1 as it sits in `pending` at the
end of `staleResumeOps`. -/
def stalePending : PendingQuery :=
  { pid := "p1",
    snapshot := { id := "p1", name := generatePlayerName 0,
                  color := playerColors.getD 0 "", score := 0 },
    content := "q1", requestRound := 1, stage := .awaitDetect }

/-- Two players in round 1 with secret word "cat"; player 1 has a classifier
call in flight. -/
def doubleWinOps : List Op :=
  [.connect "p1" "m1" 0, .fire 0 sampleEnv, .connect "p2" "m2" 1,
   .submit "p1" "q1" "m3" 2]

/-- Join two players, disconnect the first, then a third player joins: the
third player's join index equals the second player's. -/
def duplicateNameOps : List Op :=
  [.connect "a" "m1" 0, .connect "b" "m2" 1, .disconnect "a" "m3" 2,
   .connect "c" "m4" 3]

/-! ## Theorems -/

theorem if_chain_eq_or (a b c d : Bool) (p : Prop) [Decidable p] :
    (if a then true else if b then true else if c then true
     else if d then (if p then true else false) else false)
      = (a || (b || (c || (d && decide p)))) := by
  cases a <;> cases b <;> cases c <;> cases d <;> by_cases h : p <;> simp [h]

theorem checkGuess_eq_spec (secretWord : Option String) (guess : String) :
    checkGuess secretWord guess = checkGuessSpec secretWord guess := by
  cases secretWord with
  | none => rfl
  | some w =>
    simp only [checkGuess, checkGuessSpec]
    rw [if_chain_eq_or]
    simp [Bool.or_assoc]

/-- C1 counterexample: the claim asserts `checkGuess("piz")` is false against
secret word `"pizza"`, but the code's length guard tests the secret word's
normalized length (5 > 3), not the length of the overlap, and
`"pizza".includes("piz")` holds, so the guess is accepted. -/
theorem claim1_counterexample : checkGuess (some "pizza") "piz" = true := by decide

/-- C1 (amended): `checkGuess` normalizes both terms (lowercase, trim, strip
one leading article) and returns true exactly on equality, singular/plural
equivalence by one trailing "s", or substring containment in either direction
when the normalized secret word is longer than 3 characters; in particular
`checkGuess("the pizza")` is true against `"Pizza"`, `checkGuess("pizzas")`
is true against `"pizza"`, and `checkGuess("piz")` is *true* against
`"pizza"` (the length guard does not bound the overlap). -/
theorem claim1_amended :
    (∀ w g, checkGuess (some w) g = checkGuessSpec (some w) g) ∧
    checkGuess (some "Pizza") "the pizza" = true ∧
    checkGuess (some "pizza") "pizzas" = true ∧
    checkGuess (some "pizza") "piz" = true :=
  ⟨fun w g => checkGuess_eq_spec (some w) g, by decide, by decide, by decide⟩

/-- C6: an inbound question/guess message is processed only when a secret
word is active and the sender is not already in `thinkingForPlayers`; every
violating submission is a complete no-op: no chat message, no thinking delta,
no error, unchanged state. -/
theorem claim6_precondition_noop (s : Sys) (pid content mid : String) (now : Nat)
    (h : s.game.secretWord = none ∨ pid ∈ s.game.thinkingForPlayers) :
    step s (.submit pid content mid now) = (s, []) := by
  simp only [step, submitQuery]
  cases hf : s.game.players.find? (fun p => p.id == pid) with
  | none => rfl
  | some player =>
    have hguard :
        (!s.game.secretWord.isSome || s.game.thinkingForPlayers.contains pid) = true := by
      rcases h with h | h
      · simp [h]
      · simpa using Or.inr h
    simp only [hguard, if_true]

/-- C6 witness: a player with an outstanding query submits a second message;
the step leaves the system unchanged and emits nothing. -/
theorem claim6_witness :
    step (run (initSys sampleDb) [.connect "p1" "m1" 0, .fire 0 sampleEnv,
                                  .submit "p1" "is it big" "m2" 1])
        (.submit "p1" "second" "m3" 2)
      = (run (initSys sampleDb) [.connect "p1" "m1" 0, .fire 0 sampleEnv,
                                 .submit "p1" "is it big" "m2" 1], []) :=
  claim6_precondition_noop _ "p1" "second" "m3" 2 (Or.inr (by decide))

/-- C10: a joining player's name and color are functions of the players-list
length at join time, so after a disconnect a later joiner can collide with a
still-connected player: names and colors are not unique among concurrent
players. -/
theorem claim10_join_index_reuse :
    (∀ (s : Sys) (pid mid : String) (now : Nat),
        s.game.players.length < s.game.maxPlayers →
        ∃ p, (step s (.connect pid mid now)).1.game.players = s.game.players ++ [p] ∧
          p.id = pid ∧
          p.name = generatePlayerName s.game.players.length ∧
          p.color = playerColors.getD (s.game.players.length % playerColors.length) "") ∧
    (∃ p ∈ (run (initSys []) duplicateNameOps).game.players,
       ∃ q ∈ (run (initSys []) duplicateNameOps).game.players,
         p.id ≠ q.id ∧ p.name = q.name ∧ p.color = q.color) := by
  constructor
  · intro s pid mid now h
    refine ⟨{ id := pid, name := generatePlayerName s.game.players.length,
              color := playerColors.getD (s.game.players.length % playerColors.length) "",
              score := 0 }, ?_, rfl, rfl, rfl⟩
    simp only [step, openConn]
    rw [if_neg (by omega)]
    split <;> rfl
  · decide

/-- C10 witness: the first join on the fresh system is assigned the
index-0 cosmetic name and color. -/
theorem claim10_witness :
    ∃ p, (step (initSys []) (.connect "a" "m1" 0)).1.game.players =
        (initSys []).game.players ++ [p] ∧
      p.id = "a" ∧
      p.name = generatePlayerName (initSys []).game.players.length ∧
      p.color = playerColors.getD
        ((initSys []).game.players.length % playerColors.length) "" :=
  claim10_join_index_reuse.1 (initSys []) "a" "m1" 0 (by decide)

/-- C9: when `startNewRound` runs with the corpus uninitialized and corpus
initialization fails, the handler appends the "preparing" and error system
messages, broadcasts state after each, and returns without setting a secret
word — with the round counter already incremented. -/
theorem claim9_init_failure (s : Sys) (winner : Option Player) (env : RoundEnv)
    (hcr : s.game.corpusReady = false)
    (hfew : getWordCountFromDb s.db < MIN_WORDS_IN_DB)
    (hgen : env.initGen = none)
    (hsw : s.game.secretWord = none) :
    startNewRound s winner env =
      ({ s with game := { s.game with
           round := s.game.round + 1,
           chatHistory :=
             [systemMsg env.midPrep "The Oracle is preparing... please wait." env.now,
              systemMsg env.midErr "Failed to initialize the Oracle. Please try again." env.now],
           lastWinner := winner,
           thinkingForPlayers := [] } },
       [Emit.broadcast (.thinking none false []),
        Emit.broadcast (stateEvent { s.game with
          round := s.game.round + 1,
          chatHistory :=
            [systemMsg env.midPrep "The Oracle is preparing... please wait." env.now],
          lastWinner := winner,
          thinkingForPlayers := [] }),
        Emit.broadcast (stateEvent { s.game with
          round := s.game.round + 1,
          chatHistory :=
            [systemMsg env.midPrep "The Oracle is preparing... please wait." env.now,
             systemMsg env.midErr "Failed to initialize the Oracle. Please try again." env.now],
          lastWinner := winner,
          thinkingForPlayers := [] })]) ∧
    (startNewRound s winner env).1.game.secretWord = none ∧
    (startNewRound s winner env).1.game.corpusReady = false := by
  have h1 : ¬ (MIN_WORDS_IN_DB ≤ getWordCountFromDb s.db) := Nat.not_le.mpr hfew
  refine ⟨?_, ?_, ?_⟩ <;>
    simp [startNewRound, initializeCorpus, hcr, hgen, h1, hsw, stateEvent]

/-- C9 witness: from the fresh system with an empty corpus and a failing
generation call, the first round attempt increments the round to 1 and leaves
no secret word. -/
theorem claim9_witness :
    (startNewRound (initSys []) none sampleEnv).1.game.round = 1 ∧
    (startNewRound (initSys []) none sampleEnv).1.game.secretWord = none := by
  have h := claim9_init_failure (initSys []) none sampleEnv rfl (by decide) rfl rfl
  exact ⟨by rw [h.1]; rfl, h.2.1⟩

/-! ### Frame lemmas shared by the invariant claims. -/

theorem subset_saveWordsToDb (ws db : List WordEntry) : db ⊆ saveWordsToDb db ws := by
  induction ws generalizing db with
  | nil => exact fun a h => h
  | cons e ws ih =>
    have h1 : db ⊆ (if db.any (fun x => x.word == e.word) then db else db ++ [e]) := by
      split
      · exact fun a h => h
      · exact List.subset_append_left db [e]
    exact h1.trans (ih _)

theorem initializeCorpus_frame (g : GameState) (db : List WordEntry)
    (gen : Option (List WordEntry)) :
    (initializeCorpus g db gen).1.players = g.players ∧
    (initializeCorpus g db gen).1.maxPlayers = g.maxPlayers ∧
    (initializeCorpus g db gen).1.thinkingForPlayers = g.thinkingForPlayers ∧
    (initializeCorpus g db gen).1.round = g.round ∧
    (initializeCorpus g db gen).1.secretWord = g.secretWord ∧
    db ⊆ (initializeCorpus g db gen).2.1 := by
  unfold initializeCorpus
  split
  · exact ⟨rfl, rfl, rfl, rfl, rfl, fun a h => h⟩
  · split
    · exact ⟨rfl, rfl, rfl, rfl, rfl, fun a h => h⟩
    · cases gen with
      | some ws => exact ⟨rfl, rfl, rfl, rfl, rfl, subset_saveWordsToDb ws db⟩
      | none => exact ⟨rfl, rfl, rfl, rfl, rfl, fun a h => h⟩

theorem startNewRoundSelect_frame (s : Sys) (w : Option Player) (env : RoundEnv)
    (pre : List Emit) :
    (startNewRoundSelect s w env pre).1.game.players = s.game.players ∧
    (startNewRoundSelect s w env pre).1.game.maxPlayers = s.game.maxPlayers ∧
    (startNewRoundSelect s w env pre).1.game.thinkingForPlayers = s.game.thinkingForPlayers ∧
    (startNewRoundSelect s w env pre).1.game.round = s.game.round ∧
    s.db ⊆ (startNewRoundSelect s w env pre).1.db ∧
    (startNewRoundSelect s w env pre).1.conns = s.conns ∧
    (startNewRoundSelect s w env pre).1.pending = s.pending ∧
    (startNewRoundSelect s w env pre).1.scheduled = s.scheduled := by
  unfold startNewRoundSelect
  split
  next wordEntry db' hpair =>
    have hsub : s.db ⊆ db' := by
      revert hpair
      split
      · intro hpair
        injection hpair with h1 h2
        rw [← h2]
        exact fun a ha => ha
      · split
        · rename_i ws hws
          intro hpair
          injection hpair with h1 h2
          rw [← h2]
          exact subset_saveWordsToDb ws s.db
        · intro hpair
          injection hpair with h1 h2
          rw [← h2]
          exact fun a ha => ha
    cases wordEntry with
    | none => exact ⟨rfl, rfl, rfl, rfl, hsub, rfl, rfl, rfl⟩
    | some e => exact ⟨rfl, rfl, rfl, rfl, hsub, rfl, rfl, rfl⟩

theorem startNewRound_frame (s : Sys) (w : Option Player) (env : RoundEnv) :
    (startNewRound s w env).1.game.players = s.game.players ∧
    (startNewRound s w env).1.game.maxPlayers = s.game.maxPlayers ∧
    (startNewRound s w env).1.game.thinkingForPlayers = [] ∧
    (startNewRound s w env).1.game.round = s.game.round + 1 ∧
    s.db ⊆ (startNewRound s w env).1.db ∧
    (startNewRound s w env).1.conns = s.conns ∧
    (startNewRound s w env).1.pending = s.pending ∧
    (startNewRound s w env).1.scheduled = s.scheduled := by
  simp only [startNewRound]
  split
  · have hsel := startNewRoundSelect_frame
      { s with game := { s.game with
          round := s.game.round + 1, chatHistory := ([] : List ChatMessage),
          lastWinner := w, thinkingForPlayers := ([] : List String) } }
      w env [Emit.broadcast (.thinking none false [])]
    exact ⟨hsel.1, hsel.2.1, hsel.2.2.1, hsel.2.2.2.1, hsel.2.2.2.2.1,
           hsel.2.2.2.2.2.1, hsel.2.2.2.2.2.2.1, hsel.2.2.2.2.2.2.2⟩
  · have hf := initializeCorpus_frame
      { s.game with
        round := s.game.round + 1,
        chatHistory := [systemMsg env.midPrep "The Oracle is preparing... please wait." env.now],
        lastWinner := w, thinkingForPlayers := ([] : List String) }
      s.db env.initGen
    split
    · have hsel := startNewRoundSelect_frame
        { s with
          game := (initializeCorpus { s.game with
            round := s.game.round + 1,
            chatHistory :=
              [systemMsg env.midPrep "The Oracle is preparing... please wait." env.now],
            lastWinner := w, thinkingForPlayers := ([] : List String) } s.db env.initGen).1,
          db := (initializeCorpus { s.game with
            round := s.game.round + 1,
            chatHistory :=
              [systemMsg env.midPrep "The Oracle is preparing... please wait." env.now],
            lastWinner := w, thinkingForPlayers := ([] : List String) } s.db env.initGen).2.1 }
        w env
        [Emit.broadcast (.thinking none false []),
         Emit.broadcast (stateEvent { s.game with
           round := s.game.round + 1,
           chatHistory :=
             [systemMsg env.midPrep "The Oracle is preparing... please wait." env.now],
           lastWinner := w, thinkingForPlayers := ([] : List String) })]
      exact ⟨hsel.1.trans hf.1, hsel.2.1.trans hf.2.1, hsel.2.2.1.trans hf.2.2.1,
             hsel.2.2.2.1.trans hf.2.2.2.1, hf.2.2.2.2.2.trans hsel.2.2.2.2.1,
             hsel.2.2.2.2.2.1, hsel.2.2.2.2.2.2.1, hsel.2.2.2.2.2.2.2⟩
    · exact ⟨hf.1, hf.2.1, hf.2.2.1, hf.2.2.2.1, hf.2.2.2.2.2, rfl, rfl, rfl⟩

theorem openConn_db (s : Sys) (pid mid : String) (now : Nat) :
    (openConn s pid mid now).1.db = s.db := by
  simp only [openConn]
  split
  · rfl
  · split <;> rfl

theorem closeConn_db (s : Sys) (pid mid : String) (now : Nat) :
    (closeConn s pid mid now).1.db = s.db := by
  simp only [closeConn]
  split
  · rfl
  · split <;> rfl

theorem pingHandler_db (s : Sys) (pid : String) :
    (pingHandler s pid).1.db = s.db := by
  unfold pingHandler
  split <;> rfl

theorem submitQuery_db (s : Sys) (pid content mid : String) (now : Nat) :
    (submitQuery s pid content mid now).1.db = s.db := by
  simp only [submitQuery]
  split
  · rfl
  · split
    · rfl
    · split <;> rfl

theorem requestSkip_fst (s : Sys) (pid : String) : (requestSkip s pid).1 = s := by
  unfold requestSkip
  split
  · rfl
  · split
    · split <;> rfl
    · rfl

theorem resumeAfterAnswer_db (s : Sys) (pq : PendingQuery) (forced : Option String)
    (result : CallResult String) (mid : String) (now : Nat) :
    (resumeAfterAnswer s pq forced result mid now).1.db = s.db := by
  cases forced with
  | some a =>
    simp only [resumeAfterAnswer]
    split <;> rfl
  | none =>
    cases result with
    | failed =>
      simp only [resumeAfterAnswer]
      split <;> rfl
    | ok ans =>
      simp only [resumeAfterAnswer]
      split <;> rfl

theorem resumeAfterDetect_db_of_not_win (s : Sys) (pq : PendingQuery)
    (result : CallResult (Option String)) (mid : String) (now : Nat)
    (h : ∀ g, result = .ok (some g) →
        (s.game.round == pq.requestRound) = false
          ∨ checkGuess s.game.secretWord g = false) :
    (resumeAfterDetect s pq result mid now).1.db = s.db := by
  cases result with
  | failed =>
    simp only [resumeAfterDetect]
    split <;> rfl
  | ok detected =>
    simp only [resumeAfterDetect]
    split
    · rfl
    next hstale =>
      rw [Bool.not_eq_true] at hstale
      split
      · next g =>
          split
          next hcheck =>
            rcases h g rfl with h2 | h2
            · rw [bne, h2] at hstale
              simp at hstale
            · rw [h2] at hcheck
              simp at hcheck
          · rfl
      · rfl

/-- C7: a word is deleted from the corpus only on the correct-guess path: no
other operation shrinks the set of stored words; a skip leaves the corpus
exactly as it was, with the revealed word still present and reselectable by a
future random pick. -/
theorem claim7_corpus_only_win (s : Sys) :
    (∀ op, isWinningResolve s op = false → s.db ⊆ (step s op).1.db) ∧
    (∀ pid, (step s (.skipMsg pid)).1.db = s.db) ∧
    (∀ pid e, s.game.currentWordEntry = some e → e ∈ s.db →
       e ∈ (step s (.skipMsg pid)).1.db ∧
       ∃ r, getRandomWordFromDb ((step s (.skipMsg pid)).1.db) r = some e) := by
  have sub_of_eq : ∀ {l1 l2 : List WordEntry}, l2 = l1 → l1 ⊆ l2 := by
    intro l1 l2 h
    rw [h]
    exact fun a ha => ha
  have hskip : ∀ pid, (step s (.skipMsg pid)).1 = s := fun pid => requestSkip_fst s pid
  refine ⟨?_, fun pid => by rw [hskip pid], ?_⟩
  · intro op h
    cases op with
    | connect pid mid now => exact sub_of_eq (openConn_db s pid mid now)
    | disconnect pid mid now => exact sub_of_eq (closeConn_db s pid mid now)
    | ping pid => exact sub_of_eq (pingHandler_db s pid)
    | submit pid content mid now => exact sub_of_eq (submitQuery_db s pid content mid now)
    | newRoundMsg pid env =>
      show s.db ⊆ (requestNewRound s pid env).1.db
      unfold requestNewRound
      split
      · exact fun a ha => ha
      · split
        · exact (startNewRound_frame s none env).2.2.2.2.1
        · exact fun a ha => ha
    | skipMsg pid =>
      rw [hskip pid]
      exact fun a ha => ha
    | fire i env =>
      show s.db ⊆ (fireScheduled s i env).1.db
      unfold fireScheduled
      split
      · exact fun a ha => ha
      next winner hw =>
        exact (startNewRound_frame { s with scheduled := s.scheduled.eraseIdx i }
          winner env).2.2.2.2.1
    | resolveDetect i result mid now =>
      simp only [step]
      split
      next pq hget =>
        split
        next hstage =>
          refine sub_of_eq (resumeAfterDetect_db_of_not_win _ pq result mid now ?_)
          intro g hg
          subst hg
          simp only [isWinningResolve, hget, hstage] at h
          simp at h
          by_cases hr : s.game.round = pq.requestRound
          · exact Or.inr (by simpa using h hr)
          · exact Or.inl (by simpa using hr)
        next forced hstage => exact fun a ha => ha
      next hget => exact fun a ha => ha
    | resolveAnswer i result mid now =>
      simp only [step]
      split
      next pq hget =>
        split
        next forced hstage =>
          exact sub_of_eq (resumeAfterAnswer_db _ pq forced result mid now)
        next hstage => exact fun a ha => ha
      next hget => exact fun a ha => ha
  · intro pid e he hin
    constructor
    · rw [hskip pid]
      exact hin
    · rw [hskip pid]
      have hne : s.db.length ≠ 0 := by
        intro h0
        rw [List.length_eq_zero] at h0
        rw [h0] at hin
        cases hin
      obtain ⟨n, hn⟩ := List.mem_iff_get.mp hin
      refine ⟨n.val, ?_⟩
      unfold getRandomWordFromDb
      rw [if_neg hne, Nat.mod_eq_of_lt n.isLt]
      rw [List.get?_eq_get n.isLt]
      exact congrArg some hn

/-- C7 witness: in a live round on the sample corpus, a skip leaves the
corpus unchanged and the current word "cat" reselectable. -/
theorem claim7_witness :
    (run (initSys sampleDb) [.connect "p1" "m1" 0, .fire 0 sampleEnv]).db ⊆
      (step (run (initSys sampleDb) [.connect "p1" "m1" 0, .fire 0 sampleEnv])
        (.skipMsg "p1")).1.db ∧
    ∃ r, getRandomWordFromDb
        ((step (run (initSys sampleDb) [.connect "p1" "m1" 0, .fire 0 sampleEnv])
          (.skipMsg "p1")).1.db) r = some (sampleEntry "cat") := by
  have h := claim7_corpus_only_win
    (run (initSys sampleDb) [.connect "p1" "m1" 0, .fire 0 sampleEnv])
  exact ⟨h.1 (.skipMsg "p1") (by decide),
         (h.2.2 "p1" (sampleEntry "cat") (by decide) (by decide)).2⟩

/-- C8: a `skip_round` from a connected player, received with no pending
query and an active secret word, leaves the whole system state unchanged and
broadcasts exactly one `round_skipped` event (current word and category) that
every connected socket receives; with a pending query or no secret word it is
a complete no-op. -/
theorem claim8_skip (s : Sys) (pid : String) (p : Player) (w : String)
    (hp : s.game.players.find? (fun q => q.id == pid) = some p) :
    (s.game.thinkingForPlayers = [] → s.game.secretWord = some w →
      step s (.skipMsg pid)
        = (s, [Emit.broadcast (.roundSkipped w
            (s.game.currentWordEntry.map (fun e => e.category)))]) ∧
      deliverAll s.conns (step s (.skipMsg pid)).2
        = s.conns.map (fun c => (c, OutEvent.roundSkipped w
            (s.game.currentWordEntry.map (fun e => e.category))))) ∧
    ((s.game.thinkingForPlayers ≠ [] ∨ s.game.secretWord = none) →
      step s (.skipMsg pid) = (s, [])) := by
  constructor
  · intro h0 hw
    have hstep : step s (.skipMsg pid)
        = (s, [Emit.broadcast (.roundSkipped w
            (s.game.currentWordEntry.map (fun e => e.category)))]) := by
      show requestSkip s pid = _
      simp [requestSkip, hp, hw, h0]
    refine ⟨hstep, ?_⟩
    rw [hstep]
    simp [deliverAll, deliver]
  · intro hviol
    show requestSkip s pid = _
    rcases hviol with hv | hv
    · have hlen : (s.game.thinkingForPlayers.length == 0) = false := by
        simpa [List.length_eq_zero] using hv
      simp only [requestSkip, hp]
      cases hsw : s.game.secretWord with
      | none => rfl
      | some w2 => simp [hlen]
    · simp [requestSkip, hp, hv]

/-- C8 witness: in a live round on the sample corpus (secret word "cat", no
pending query), the skip broadcasts exactly the reveal event and changes
nothing. -/
theorem claim8_witness :
    step (run (initSys sampleDb) [.connect "p1" "m1" 0, .fire 0 sampleEnv]) (.skipMsg "p1")
      = (run (initSys sampleDb) [.connect "p1" "m1" 0, .fire 0 sampleEnv],
         [Emit.broadcast (.roundSkipped "cat"
           ((run (initSys sampleDb)
              [.connect "p1" "m1" 0, .fire 0 sampleEnv]).game.currentWordEntry.map
             (fun e => e.category)))]) :=
  ((claim8_skip _ "p1"
      { id := "p1", name := generatePlayerName 0, color := playerColors.getD 0 "", score := 0 }
      "cat" (by decide)).1 (by decide) (by decide)).1

theorem bumpScore_length (l : List Player) (y : String) :
    (bumpScore l y).length = l.length := List.length_map l _

theorem mem_of_mem_setDelete {l : List String} {a x : String}
    (h : x ∈ setDelete l a) : x ∈ l := (List.mem_filter.mp h).1

theorem resumeAfterDetect_facts (s : Sys) (pq : PendingQuery)
    (result : CallResult (Option String)) (mid : String) (now : Nat) :
    ((resumeAfterDetect s pq result mid now).1.game.players = s.game.players ∨
     (resumeAfterDetect s pq result mid now).1.game.players
       = bumpScore s.game.players pq.pid) ∧
    (resumeAfterDetect s pq result mid now).1.game.maxPlayers = s.game.maxPlayers ∧
    (∀ x ∈ (resumeAfterDetect s pq result mid now).1.game.thinkingForPlayers,
        x ∈ s.game.thinkingForPlayers) := by
  cases result with
  | failed =>
    simp only [resumeAfterDetect]
    split
    · exact ⟨Or.inl rfl, rfl, fun x hx => mem_of_mem_setDelete hx⟩
    · exact ⟨Or.inl rfl, rfl, fun x hx => hx⟩
  | ok detected =>
    simp only [resumeAfterDetect]
    split
    · exact ⟨Or.inl rfl, rfl, fun x hx => mem_of_mem_setDelete hx⟩
    · split
      · split
        · exact ⟨Or.inr rfl, rfl, fun x hx => absurd hx (List.not_mem_nil x)⟩
        · exact ⟨Or.inl rfl, rfl, fun x hx => mem_of_mem_setDelete hx⟩
      · exact ⟨Or.inl rfl, rfl, fun x hx => hx⟩

theorem resumeAfterAnswer_facts (s : Sys) (pq : PendingQuery) (forced : Option String)
    (result : CallResult String) (mid : String) (now : Nat) :
    (resumeAfterAnswer s pq forced result mid now).1.game.players = s.game.players ∧
    (resumeAfterAnswer s pq forced result mid now).1.game.maxPlayers = s.game.maxPlayers ∧
    (∀ x ∈ (resumeAfterAnswer s pq forced result mid now).1.game.thinkingForPlayers,
        x ∈ s.game.thinkingForPlayers) := by
  cases forced with
  | some a =>
    simp only [resumeAfterAnswer]
    split
    · exact ⟨rfl, rfl, fun x hx => mem_of_mem_setDelete hx⟩
    · exact ⟨rfl, rfl, fun x hx => mem_of_mem_setDelete hx⟩
  | none =>
    cases result with
    | failed =>
      simp only [resumeAfterAnswer]
      split
      · exact ⟨rfl, rfl, fun x hx => mem_of_mem_setDelete hx⟩
      · exact ⟨rfl, rfl, fun x hx => hx⟩
    | ok ans =>
      simp only [resumeAfterAnswer]
      split
      · exact ⟨rfl, rfl, fun x hx => mem_of_mem_setDelete hx⟩
      · exact ⟨rfl, rfl, fun x hx => mem_of_mem_setDelete hx⟩

/-- One step preserves the capacity bound and never changes `maxPlayers`. -/
theorem step_cap (s : Sys) (op : Op) (h : s.game.players.length ≤ s.game.maxPlayers) :
    (step s op).1.game.players.length ≤ (step s op).1.game.maxPlayers ∧
    (step s op).1.game.maxPlayers = s.game.maxPlayers := by
  cases op with
  | connect pid mid now =>
    simp only [step, openConn]
    split
    · exact ⟨h, rfl⟩
    next hfull =>
      split
      all_goals
        refine ⟨?_, rfl⟩
        simp only [List.length_append, List.length_cons, List.length_nil]
        omega
  | disconnect pid mid now =>
    simp only [step, closeConn]
    split
    · exact ⟨h, rfl⟩
    next i hidx =>
      split
      · exact ⟨h, rfl⟩
      next player hget =>
        refine ⟨?_, rfl⟩
        show (s.game.players.eraseIdx i).length ≤ s.game.maxPlayers
        rw [List.length_eraseIdx]
        split <;> omega
  | ping pid =>
    simp only [step, pingHandler]
    split <;> exact ⟨h, rfl⟩
  | submit pid content mid now =>
    simp only [step, submitQuery]
    split
    · exact ⟨h, rfl⟩
    · split
      · exact ⟨h, rfl⟩
      · split
        · exact ⟨h, rfl⟩
        · exact ⟨h, rfl⟩
  | resolveDetect i result mid now =>
    simp only [step]
    split
    next pq hget =>
      split
      next hstage =>
        have hf := resumeAfterDetect_facts
          { s with pending := s.pending.eraseIdx i } pq result mid now
        refine ⟨?_, hf.2.1⟩
        rw [hf.2.1]
        rcases hf.1 with hp | hp
        · rw [hp]; exact h
        · rw [hp, bumpScore_length]; exact h
      next => exact ⟨h, rfl⟩
    next => exact ⟨h, rfl⟩
  | resolveAnswer i result mid now =>
    simp only [step]
    split
    next pq hget =>
      split
      next forced hstage =>
        have hf := resumeAfterAnswer_facts
          { s with pending := s.pending.eraseIdx i } pq forced result mid now
        refine ⟨?_, hf.2.1⟩
        rw [hf.2.1, hf.1]
        exact h
      next => exact ⟨h, rfl⟩
    next => exact ⟨h, rfl⟩
  | newRoundMsg pid env =>
    simp only [step, requestNewRound]
    split
    · exact ⟨h, rfl⟩
    · split
      · have hf := startNewRound_frame s none env
        refine ⟨?_, hf.2.1⟩
        rw [hf.2.1, hf.1]
        exact h
      · exact ⟨h, rfl⟩
  | skipMsg pid =>
    rw [show (step s (.skipMsg pid)).1 = s from requestSkip_fst s pid]
    exact ⟨h, rfl⟩
  | fire i env =>
    simp only [step, fireScheduled]
    split
    · exact ⟨h, rfl⟩
    next winner hw =>
      have hf := startNewRound_frame { s with scheduled := s.scheduled.eraseIdx i } winner env
      refine ⟨?_, hf.2.1⟩
      rw [hf.2.1, hf.1]
      exact h

/-- C5: for any sequence of operations from the initial state, the number of
connected players never exceeds 8; a connection attempt arriving at capacity
receives an error message, is not registered, and changes nothing. -/
theorem claim5_capacity :
    (∀ (db0 : List WordEntry) (ops : List Op),
        (run (initSys db0) ops).game.players.length ≤ 8) ∧
    (∀ (s : Sys) (pid mid : String) (now : Nat),
        s.game.maxPlayers ≤ s.game.players.length →
        step s (.connect pid mid now) = (s, [Emit.direct pid (.error "Game is full!")])) := by
  constructor
  · have key : ∀ (ops : List Op) (s : Sys),
        s.game.players.length ≤ s.game.maxPlayers → s.game.maxPlayers = 8 →
        (run s ops).game.players.length ≤ 8 := by
      intro ops
      induction ops with
      | nil =>
        intro s h1 h2
        rw [← h2]
        exact h1
      | cons op ops ih =>
        intro s h1 h2
        show (run (step s op).1 ops).game.players.length ≤ 8
        have hc := step_cap s op h1
        exact ih (step s op).1 hc.1 (hc.2.trans h2)
    intro db0 ops
    exact key ops (initSys db0) (by simp [initSys, initialGameState]) rfl
  · intro s pid mid now h
    show openConn s pid mid now = _
    simp only [openConn]
    rw [if_pos h]

/-- C5 witness: after eight joins the ninth connection attempt is rejected
with the capacity error and the system is unchanged. -/
theorem claim5_witness :
    (run (initSys sampleDb)
      [.connect "a" "m1" 0, .connect "b" "m2" 1, .connect "c" "m3" 2, .connect "d" "m4" 3,
       .connect "e" "m5" 4, .connect "f" "m6" 5, .connect "g" "m7" 6,
       .connect "h" "m8" 7]).game.players.length ≤ 8 ∧
    step (run (initSys sampleDb)
      [.connect "a" "m1" 0, .connect "b" "m2" 1, .connect "c" "m3" 2, .connect "d" "m4" 3,
       .connect "e" "m5" 4, .connect "f" "m6" 5, .connect "g" "m7" 6,
       .connect "h" "m8" 7]) (.connect "i" "m9" 8)
      = (run (initSys sampleDb)
          [.connect "a" "m1" 0, .connect "b" "m2" 1, .connect "c" "m3" 2, .connect "d" "m4" 3,
           .connect "e" "m5" 4, .connect "f" "m6" 5, .connect "g" "m7" 6,
           .connect "h" "m8" 7], [Emit.direct "i" (.error "Game is full!")]) :=
  ⟨claim5_capacity.1 sampleDb _,
   claim5_capacity.2 _ "i" "m9" 8 (by decide)⟩

/-- C3 counterexample: a player disconnects while their query is in flight;
the close handler removes the player but does not touch
`thinkingForPlayers`, so the subset invariant that held before the
disconnect fails right after it. -/
theorem claim3_counterexample :
    thinkingSubsetPlayers
      (run (initSys sampleDb)
        [.connect "p1" "m1" 0, .fire 0 sampleEnv, .submit "p1" "is it alive" "m2" 1]).game ∧
    ¬ thinkingSubsetPlayers (run (initSys sampleDb) disconnectWhileThinkingOps).game := by
  constructor <;> decide

/-- C3 (amended): after every operation except the disconnect of a player
with an outstanding query, `thinkingForPlayers` stays a subset of the
connected players' ids; the close handler does not remove the departing id,
so the invariant is only preserved when the disconnecting player is not
thinking. -/
theorem claim3_amended (s : Sys) (op : Op)
    (hinv : thinkingSubsetPlayers s.game)
    (hop : ∀ pid mid now, op = .disconnect pid mid now → pid ∉ s.game.thinkingForPlayers) :
    thinkingSubsetPlayers (step s op).1.game := by
  cases op with
  | connect pid mid now =>
    simp only [step, openConn]
    split
    · exact hinv
    · split
      all_goals
        intro q hq
        obtain ⟨p, hp, hpid⟩ := hinv q hq
        exact ⟨p, List.mem_append_left _ hp, hpid⟩
  | disconnect pid mid now =>
    have hnm : pid ∉ s.game.thinkingForPlayers := hop pid mid now rfl
    simp only [step, closeConn]
    split
    · exact hinv
    next i hidx =>
      split
      · exact hinv
      next player hget =>
        intro q hq
        obtain ⟨p, hp, hpid⟩ := hinv q hq
        obtain ⟨hlt, hpred, _⟩ := List.findIdx?_eq_some_iff_getElem.mp hidx
        have hqne : q ≠ pid := fun hq2 => hnm (hq2 ▸ hq)
        obtain ⟨j, hjlt, hj⟩ := List.mem_iff_getElem.mp hp
        have hjne : j ≠ i := by
          intro hji
          subst hji
          rw [hj] at hpred
          have : p.id = pid := by simpa using hpred
          exact hqne (hpid ▸ this)
        refine ⟨p, ?_, hpid⟩
        rw [List.mem_eraseIdx_iff_getElem?]
        exact ⟨j, hjne, by rw [List.getElem?_eq_getElem hjlt, hj]⟩
  | ping pid =>
    simp only [step, pingHandler]
    split <;> exact hinv
  | submit pid content mid now =>
    simp only [step, submitQuery]
    split
    · exact hinv
    next player hfind =>
      split
      · exact hinv
      · split
        · exact hinv
        · intro q hq
          have hq2 : q ∈ setAdd s.game.thinkingForPlayers pid := hq
          unfold setAdd at hq2
          by_cases hc : (s.game.thinkingForPlayers.contains pid) = true
          · rw [if_pos hc] at hq2
            exact hinv q hq2
          · rw [if_neg hc] at hq2
            rcases List.mem_append.mp hq2 with hmem | hmem
            · exact hinv q hmem
            · have hqq : q = pid := List.mem_singleton.mp hmem
              subst hqq
              refine ⟨player, List.mem_of_find?_eq_some hfind, ?_⟩
              have := List.find?_some hfind
              simpa using this
  | resolveDetect i result mid now =>
    simp only [step]
    split
    next pq hget =>
      split
      next hstage =>
        have hf := resumeAfterDetect_facts
          { s with pending := s.pending.eraseIdx i } pq result mid now
        intro q hq
        have hq2 := hf.2.2 q hq
        obtain ⟨p, hp, hpid⟩ := hinv q hq2
        rcases hf.1 with hpl | hpl
        · exact ⟨p, by rw [hpl]; exact hp, hpid⟩
        · refine ⟨if p.id == pq.pid then { p with score := p.score + 1 } else p, ?_, ?_⟩
          · rw [hpl]
            exact List.mem_map_of_mem _ hp
          · split <;> exact hpid
      next => exact hinv
    next => exact hinv
  | resolveAnswer i result mid now =>
    simp only [step]
    split
    next pq hget =>
      split
      next forced hstage =>
        have hf := resumeAfterAnswer_facts
          { s with pending := s.pending.eraseIdx i } pq forced result mid now
        intro q hq
        have hq2 := hf.2.2 q hq
        obtain ⟨p, hp, hpid⟩ := hinv q hq2
        exact ⟨p, by rw [hf.1]; exact hp, hpid⟩
      next => exact hinv
    next => exact hinv
  | newRoundMsg pid env =>
    simp only [step, requestNewRound]
    split
    · exact hinv
    · split
      · intro q hq
        rw [(startNewRound_frame s none env).2.2.1] at hq
        exact absurd hq (List.not_mem_nil q)
      · exact hinv
  | skipMsg pid =>
    rw [show (step s (.skipMsg pid)).1 = s from requestSkip_fst s pid]
    exact hinv
  | fire i env =>
    simp only [step, fireScheduled]
    split
    · exact hinv
    next winner hw =>
      intro q hq
      rw [(startNewRound_frame { s with scheduled := s.scheduled.eraseIdx i }
        winner env).2.2.1] at hq
      exact absurd hq (List.not_mem_nil q)

/-- C3 witness: with player 1 thinking, a ping (not a disconnect) preserves
the subset invariant. -/
theorem claim3_witness :
    thinkingSubsetPlayers
      (step (run (initSys sampleDb)
        [.connect "p1" "m1" 0, .fire 0 sampleEnv, .submit "p1" "is it alive" "m2" 1])
        (.ping "p1")).1.game :=
  claim3_amended _ (.ping "p1") (by decide) (fun pid mid now h => nomatch h)

/-- C2 counterexample: player 1's round-1 query resolves after the round has
advanced to 2 and after player 1 has started a new query in round 2; the
stale resume appends no chat message and changes no score, but it erases
player 1's id from `thinkingForPlayers` — a thinking-flag mutation that
cancels the newer query's flag. -/
theorem claim2_counterexample :
    (run (initSys sampleDb) staleResumeOps).game.round = 2 ∧
    ((run (initSys sampleDb) staleResumeOps).pending.get? 0).map
      (fun pq => pq.requestRound) = some 1 ∧
    (run (initSys sampleDb) staleResumeOps).game.thinkingForPlayers = ["p1"] ∧
    (step (run (initSys sampleDb) staleResumeOps)
      (.resolveDetect 0 (.ok none) "m7" 6)).1.game.thinkingForPlayers = [] := by
  refine ⟨?_, ?_, ?_, ?_⟩ <;> decide

/-- C2 (amended): a query resuming after its round has passed appends no
chat message, changes no player's score, and emits nothing; however, instead
of leaving the thinking set untouched it removes the player's id from
`thinkingForPlayers` (without broadcasting a delta), which also cancels the
thinking flag of a newer in-flight query by the same player; a resume from a
thrown call in a stale round changes nothing beyond consuming the pending
entry. -/
theorem claim2_stale_discard (s : Sys) (i : Nat) (pq : PendingQuery)
    (det : Option String) (ans : String) (forced : Option String)
    (mid : String) (now : Nat)
    (hget : s.pending.get? i = some pq)
    (hstale : s.game.round ≠ pq.requestRound) :
    (pq.stage = .awaitDetect →
      (step s (.resolveDetect i (.ok det) mid now)).1.game.chatHistory
          = s.game.chatHistory ∧
      (step s (.resolveDetect i (.ok det) mid now)).1.game.players = s.game.players ∧
      (step s (.resolveDetect i (.ok det) mid now)).2 = [] ∧
      (step s (.resolveDetect i (.ok det) mid now)).1.game.thinkingForPlayers
          = setDelete s.game.thinkingForPlayers pq.pid) ∧
    (pq.stage = .awaitDetect →
      step s (.resolveDetect i .failed mid now)
        = ({ s with pending := s.pending.eraseIdx i }, [])) ∧
    (pq.stage = .awaitAnswer forced →
      (step s (.resolveAnswer i (.ok ans) mid now)).1.game.chatHistory
          = s.game.chatHistory ∧
      (step s (.resolveAnswer i (.ok ans) mid now)).1.game.players = s.game.players ∧
      (step s (.resolveAnswer i (.ok ans) mid now)).2 = [] ∧
      (step s (.resolveAnswer i (.ok ans) mid now)).1.game.thinkingForPlayers
          = setDelete s.game.thinkingForPlayers pq.pid) ∧
    (pq.stage = .awaitAnswer forced → forced = none →
      step s (.resolveAnswer i .failed mid now)
        = ({ s with pending := s.pending.eraseIdx i }, [])) := by
  have hbeq : (s.game.round == pq.requestRound) = false := by
    simpa using hstale
  refine ⟨?_, ?_, ?_, ?_⟩
  · intro hstage
    simp only [step, hget, hstage]
    simp [resumeAfterDetect, bne, hbeq]
  · intro hstage
    simp only [step, hget, hstage]
    simp [resumeAfterDetect, hbeq]
  · intro hstage
    simp only [step, hget, hstage]
    cases forced with
    | some a => simp [resumeAfterAnswer, bne, hbeq]
    | none => simp [resumeAfterAnswer, bne, hbeq]
  · intro hstage hforced
    subst hforced
    simp only [step, hget, hstage]
    simp [resumeAfterAnswer, hbeq]

/-- C2 witness: the stale resume at the end of the `staleResumeOps`
interleaving discards its result and performs exactly the thinking-set
erasure. -/
theorem claim2_witness :
    (step (run (initSys sampleDb) staleResumeOps)
      (.resolveDetect 0 (.ok none) "m7" 6)).1.game.chatHistory
        = (run (initSys sampleDb) staleResumeOps).game.chatHistory ∧
    (step (run (initSys sampleDb) staleResumeOps)
      (.resolveDetect 0 (.ok none) "m7" 6)).1.game.players
        = (run (initSys sampleDb) staleResumeOps).game.players ∧
    (step (run (initSys sampleDb) staleResumeOps)
      (.resolveDetect 0 (.ok none) "m7" 6)).2 = [] ∧
    (step (run (initSys sampleDb) staleResumeOps)
      (.resolveDetect 0 (.ok none) "m7" 6)).1.game.thinkingForPlayers
        = setDelete (run (initSys sampleDb) staleResumeOps).game.thinkingForPlayers "p1" :=
  (claim2_stale_discard (run (initSys sampleDb) staleResumeOps) 0 stalePending
    none "unused" none "m7" 6 (by decide) (by decide)).1 rfl

/-! ### The correct-guess (win) path, for C4. -/

theorem resolveDetect_win_facts (s : Sys) (i : Nat) (pq : PendingQuery)
    (g mid : String) (now : Nat)
    (hget : s.pending.get? i = some pq)
    (hstage : pq.stage = .awaitDetect)
    (hrr : pq.requestRound = s.game.round)
    (hcheck : checkGuess s.game.secretWord g = true) :
    (step s (.resolveDetect i (.ok (some g)) mid now)).1.game.secretWord
        = s.game.secretWord ∧
    (step s (.resolveDetect i (.ok (some g)) mid now)).1.game.round = s.game.round ∧
    (step s (.resolveDetect i (.ok (some g)) mid now)).1.game.thinkingForPlayers = [] ∧
    (step s (.resolveDetect i (.ok (some g)) mid now)).1.game.players
        = bumpScore s.game.players pq.pid ∧
    (step s (.resolveDetect i (.ok (some g)) mid now)).1.pending
        = s.pending.eraseIdx i ∧
    (step s (.resolveDetect i (.ok (some g)) mid now)).1.scheduled
        = s.scheduled ++
            [some (((bumpScore s.game.players pq.pid).find? (fun p => p.id == pq.pid)).getD
              { pq.snapshot with score := pq.snapshot.score + 1 })] ∧
    (step s (.resolveDetect i (.ok (some g)) mid now)).2
        = [Emit.broadcast (.thinking none false []),
           Emit.broadcast (.chatMessage
             { id := mid, playerId := "ai", playerName := "Oracle",
               playerColor := "#6B5B95", type := .answer,
               content := "YES! The word was \"" ++ s.game.secretWord.getD "null"
                 ++ "\"! " ++ pq.snapshot.name ++ " wins this round!",
               timestamp := now,
               replyTo := some ⟨pq.snapshot.name, pq.snapshot.color⟩ })] := by
  have hbeq : (s.game.round == pq.requestRound) = true := beq_iff_eq.mpr hrr.symm
  simp only [step, hget, hstage]
  simp only [resumeAfterDetect, bne, hbeq, Bool.not_true, Bool.false_eq_true, if_false,
    hcheck, if_true]
  refine ⟨?_, ?_, ?_, ?_, ?_, ?_, ?_⟩ <;> trivial

theorem submitQuery_accept (s : Sys) (pid c mid : String) (now : Nat) (p : Player)
    (hp : s.game.players.find? (fun q => q.id == pid) = some p)
    (hsw : s.game.secretWord.isSome = true)
    (hthk : (s.game.thinkingForPlayers.contains pid) = false)
    (hc : (jsTrim c == "") = false) :
    (step s (.submit pid c mid now)).1.game.players = s.game.players ∧
    (step s (.submit pid c mid now)).1.game.secretWord = s.game.secretWord ∧
    (step s (.submit pid c mid now)).1.game.round = s.game.round ∧
    (step s (.submit pid c mid now)).1.game.thinkingForPlayers
        = setAdd s.game.thinkingForPlayers pid ∧
    (step s (.submit pid c mid now)).1.pending
        = s.pending ++ [{ pid := pid, snapshot := p, content := jsTrim c,
                          requestRound := s.game.round, stage := .awaitDetect }] ∧
    (step s (.submit pid c mid now)).1.scheduled = s.scheduled := by
  simp only [step, submitQuery, hp, hsw, hthk, hc, Bool.not_true, Bool.or_false,
    Bool.false_eq_true, if_false]
  refine ⟨?_, ?_, ?_, ?_, ?_, ?_⟩ <;> trivial

theorem fireScheduled_round (s : Sys) (i : Nat) (winner : Option Player) (env : RoundEnv)
    (hget : s.scheduled.get? i = some winner) :
    (step s (.fire i env)).1.game.round = s.game.round + 1 ∧
    (step s (.fire i env)).1.scheduled = s.scheduled.eraseIdx i := by
  simp only [step, fireScheduled, hget]
  have hf := startNewRound_frame { s with scheduled := s.scheduled.eraseIdx i } winner env
  exact ⟨hf.2.2.2.1, hf.2.2.2.2.2.2.2⟩

theorem find?_bumpScore (l : List Player) (x y : String) (p : Player)
    (h : l.find? (fun q => q.id == x) = some p) :
    (bumpScore l y).find? (fun q => q.id == x)
      = some (if p.id == y then { p with score := p.score + 1 } else p) := by
  induction l with
  | nil => simp at h
  | cons a l ih =>
    by_cases ha : (a.id == x) = true
    · rw [List.find?_cons_of_pos l ha] at h
      injection h with h
      subst h
      simp only [bumpScore, List.map_cons]
      exact List.find?_cons_of_pos _ (by split <;> exact ha)
    · rw [List.find?_cons_of_neg l ha] at h
      simp only [bumpScore, List.map_cons]
      refine Eq.trans (List.find?_cons_of_neg _ ?_) (ih h)
      split <;> exact ha

/-- C4: between a correct guess and the scheduled next-round start, the
secret word remains set and all thinking flags are cleared, so a second
player who submits the same correct guess in that window also wins: their
score increments, a second win message is broadcast, a second round start is
scheduled, and firing both scheduled starts advances the round counter by 2
for the one guessed word. -/
theorem claim4_double_win (s s1 s2 : Sys) (r3 : Sys × List Emit) (pq : PendingQuery)
    (p2 : Player) (w g c mid1 mid2 mid3 : String) (t1 t2 t3 : Nat)
    (env1 env2 : RoundEnv)
    (hsw : s.game.secretWord = some w)
    (hpend : s.pending = [pq])
    (hstage : pq.stage = .awaitDetect)
    (hrr : pq.requestRound = s.game.round)
    (hg : checkGuess (some w) g = true)
    (hsched : s.scheduled = [])
    (hp2 : s.game.players.find? (fun q => q.id == p2.id) = some p2)
    (hne : (p2.id == pq.pid) = false)
    (hc : (jsTrim c == "") = false)
    (hs1 : s1 = (step s (.resolveDetect 0 (.ok (some g)) mid1 t1)).1)
    (hs2 : s2 = (step s1 (.submit p2.id c mid2 t2)).1)
    (hr3 : r3 = step s2 (.resolveDetect 0 (.ok (some g)) mid3 t3)) :
    (s1.game.secretWord = some w ∧ s1.game.thinkingForPlayers = [] ∧
     s1.game.round = s.game.round) ∧
    (r3.1.game.players.find? (fun q => q.id == p2.id)
        = some { p2 with score := p2.score + 1 }) ∧
    (∃ m, r3.2 = [Emit.broadcast (.thinking none false []),
                  Emit.broadcast (.chatMessage m)] ∧
       m.type = .answer ∧
       m.content = s!"YES! The word was \"{w}\"! {p2.name} wins this round!") ∧
    (∃ w1 w2, r3.1.scheduled = [some w1, some w2]) ∧
    (run r3.1 [.fire 0 env1, .fire 0 env2]).game.round = s.game.round + 2 := by
  -- first win
  have hget1 : s.pending.get? 0 = some pq := by rw [hpend]; rfl
  have hcheck1 : checkGuess s.game.secretWord g = true := by rw [hsw]; exact hg
  have A := resolveDetect_win_facts s 0 pq g mid1 t1 hget1 hstage hrr hcheck1
  have h1sw : s1.game.secretWord = some w := by rw [hs1, A.1]; exact hsw
  have h1thk : s1.game.thinkingForPlayers = [] := by rw [hs1]; exact A.2.2.1
  have h1rnd : s1.game.round = s.game.round := by rw [hs1]; exact A.2.1
  have h1pl : s1.game.players = bumpScore s.game.players pq.pid := by
    rw [hs1]; exact A.2.2.2.1
  have h1pend : s1.pending = [] := by
    rw [hs1, A.2.2.2.2.1, hpend]
    rfl
  have h1sch : s1.scheduled
      = [some (((bumpScore s.game.players pq.pid).find? (fun p => p.id == pq.pid)).getD
          { pq.snapshot with score := pq.snapshot.score + 1 })] := by
    rw [hs1, A.2.2.2.2.2.1, hsched]
    rfl
  -- second submit goes through
  have hfind1 : s1.game.players.find? (fun q => q.id == p2.id) = some p2 := by
    rw [h1pl, find?_bumpScore s.game.players p2.id pq.pid p2 hp2]
    simp [hne]
  have B := submitQuery_accept s1 p2.id c mid2 t2 p2 hfind1
    (by rw [h1sw]; rfl) (by rw [h1thk]; rfl) hc
  have h2pl : s2.game.players = s1.game.players := by rw [hs2]; exact B.1
  have h2sw : s2.game.secretWord = some w := by rw [hs2, B.2.1]; exact h1sw
  have h2rnd : s2.game.round = s.game.round := by rw [hs2, B.2.2.1]; exact h1rnd
  have h2pend : s2.pending
      = [⟨p2.id, p2, jsTrim c, s1.game.round, .awaitDetect⟩] := by
    rw [hs2, B.2.2.2.2.1, h1pend]
    rfl
  have h2sch : s2.scheduled = s1.scheduled := by rw [hs2]; exact B.2.2.2.2.2
  -- second win
  have hget2 : s2.pending.get? 0 = some ⟨p2.id, p2, jsTrim c, s1.game.round, .awaitDetect⟩ := by
    rw [h2pend]; rfl
  have hrr2 : (⟨p2.id, p2, jsTrim c, s1.game.round, .awaitDetect⟩ : PendingQuery).requestRound
      = s2.game.round := by
    show s1.game.round = s2.game.round
    rw [h1rnd, h2rnd]
  have hcheck2 : checkGuess s2.game.secretWord g = true := by rw [h2sw]; exact hg
  have C := resolveDetect_win_facts s2 0 ⟨p2.id, p2, jsTrim c, s1.game.round, .awaitDetect⟩
    g mid3 t3 hget2 rfl hrr2 hcheck2
  have hfind2 : s2.game.players.find? (fun q => q.id == p2.id) = some p2 := by
    rw [h2pl]; exact hfind1
  have h3pl : r3.1.game.players = bumpScore s2.game.players p2.id := by
    rw [hr3]; exact C.2.2.2.1
  have h3rnd : r3.1.game.round = s.game.round := by
    rw [hr3, C.2.1]; exact h2rnd
  have h3sch : r3.1.scheduled
      = s2.scheduled ++
          [some (((bumpScore s2.game.players p2.id).find? (fun p => p.id == p2.id)).getD
            { p2 with score := p2.score + 1 })] := by
    rw [hr3]; exact C.2.2.2.2.2.1
  have hfind3 : r3.1.game.players.find? (fun q => q.id == p2.id)
      = some { p2 with score := p2.score + 1 } := by
    rw [h3pl, find?_bumpScore s2.game.players p2.id p2.id p2 hfind2]
    simp
  have hsch3 : r3.1.scheduled
      = [some (((bumpScore s.game.players pq.pid).find? (fun p => p.id == pq.pid)).getD
            { pq.snapshot with score := pq.snapshot.score + 1 }),
         some (((bumpScore s2.game.players p2.id).find? (fun p => p.id == p2.id)).getD
            { p2 with score := p2.score + 1 })] := by
    rw [h3sch, h2sch, h1sch]
    rfl
  obtain ⟨x1, x2, hsch4⟩ : ∃ w1 w2, r3.1.scheduled = [some w1, some w2] := ⟨_, _, hsch3⟩
  refine ⟨⟨h1sw, h1thk, h1rnd⟩, hfind3, ?_, ⟨_, _, hsch4⟩, ?_⟩
  · refine ⟨{ id := mid3, playerId := "ai", playerName := "Oracle",
              playerColor := "#6B5B95", type := .answer,
              content := "YES! The word was \"" ++ s2.game.secretWord.getD "null"
                ++ "\"! " ++ p2.name ++ " wins this round!",
              timestamp := t3, replyTo := some ⟨p2.name, p2.color⟩ }, ?_, rfl, ?_⟩
    · rw [hr3]; exact C.2.2.2.2.2.2
    · rw [h2sw]
      rfl
  · have hget3 : r3.1.scheduled.get? 0 = some (some x1) := by rw [hsch4]; rfl
    have F1 := fireScheduled_round r3.1 0 (some x1) env1 hget3
    have h4sch : (step r3.1 (.fire 0 env1)).1.scheduled = [some x2] := by
      rw [F1.2, hsch4]
      rfl
    have hget4 : (step r3.1 (.fire 0 env1)).1.scheduled.get? 0 = some (some x2) := by
      rw [h4sch]; rfl
    have F2 := fireScheduled_round (step r3.1 (.fire 0 env1)).1 0 (some x2) env2 hget4
    show (step (step r3.1 (.fire 0 env1)).1 (.fire 0 env2)).1.game.round = s.game.round + 2
    rw [F2.1, F1.1, h3rnd]

/-- C4 witness: with secret word "cat" and player 1's classifier call in
flight, player 1's resolution wins round 1; player 2 then submits "cat!" in
the grace window and its resolution also wins, so player 2's score becomes 1
and firing the two scheduled round starts takes the round from 1 to 3. -/
theorem claim4_witness :
    (run (step (step (step (run (initSys sampleDb) doubleWinOps)
          (.resolveDetect 0 (.ok (some "cat")) "w1" 10)).1
        (.submit "p2" "cat!" "w2" 11)).1
        (.resolveDetect 0 (.ok (some "cat")) "w3" 12)).1
        [.fire 0 sampleEnv, .fire 0 sampleEnv]).game.round
      = (run (initSys sampleDb) doubleWinOps).game.round + 2 ∧
    (step (step (step (run (initSys sampleDb) doubleWinOps)
          (.resolveDetect 0 (.ok (some "cat")) "w1" 10)).1
        (.submit "p2" "cat!" "w2" 11)).1
        (.resolveDetect 0 (.ok (some "cat")) "w3" 12)).1.game.players.find?
          (fun q => q.id == "p2")
      = some { id := "p2", name := generatePlayerName 1,
               color := playerColors.getD 1 "", score := 1 } := by
  have h := claim4_double_win (run (initSys sampleDb) doubleWinOps) _ _ _
    stalePending
    { id := "p2", name := generatePlayerName 1, color := playerColors.getD 1 "", score := 0 }
    "cat" "cat" "cat!" "w1" "w2" "w3" 10 11 12 sampleEnv sampleEnv
    (by decide) (by decide) rfl (by decide) (by decide) (by decide) (by decide)
    (by decide) (by decide) rfl rfl rfl
  exact ⟨h.2.2.2.2, h.2.1⟩

end WordOracle
